import Mathlib

/-!
Verification of suno_trending_parser.py against its specification.

This file gives a shallow embedding, in Lean 4, of the core logic of the
repository's single source file `suno_trending_parser.py`:

* `sanitize_filename` (line 91-92): character removal plus strip.
* `download_audio` (lines 94-123): cached media fetch.  The filesystem is
  modelled as the list of existing paths, the network as a function from a
  URL to either a transport failure or an HTTP response; the third
  component of the result counts how many HTTP requests were issued.
* the play-count parsing block of `parse_trending` (lines 192-200),
  including the exception that `float` raises on a digits-and-dots prefix
  that is not a valid decimal literal.  CPython evaluates
  `int(float(val) * mult)` in binary floating point; the model uses exact
  arithmetic `(a * 10 ^ k + b) * mult / 10 ^ k`, which coincides with the
  code on every input considered in this development.
* the audio-URL extraction block of `parse_trending` (lines 273-293),
  including a character-level model of the regular expression
  `(https?://[^\s\x27\x22<>]+\.(mp3|wav|ogg|m4a|flac))` under `re.I`
  with Python's leftmost, greedy-with-backtracking, non-overlapping
  `findall` semantics.
* the style extraction block of `parse_trending` (lines 238-270), with
  the collaborating browser session abstracted as the data it yields
  (link texts, and the outcome of the expand-control interaction).
* `track_exists`, the `UNIQUE` constraint of `create_database_and_table`
  and `save_new_tracks` (lines 85-87, 35-49, 314-344).  The table is
  modelled as the list of inserted rows; an insert whose `track_url`
  string equals that of a stored row fails with a duplicate-key error
  (SQLite's `UNIQUE` never makes two NULLs conflict, so a row whose
  `track_url` is NULL always inserts).

Whitespace predicates model the ASCII whitespace characters; the further
Unicode whitespace code points accepted by Python are not exercised by
anything in this development and are omitted.
-/

/-- Python whitespace, used by `str.strip()` and by the regex class
complement in the URL pattern (ASCII part). -/
def isPySpace (c : Char) : Bool :=
  c == Char.ofNat 32 || c == Char.ofNat 9 || c == Char.ofNat 10 ||
  c == Char.ofNat 13 || c == Char.ofNat 11 || c == Char.ofNat 12

/-- The character class of `re.sub` in `sanitize_filename`:
backslash, slash, asterisk, question mark, colon, double quote,
angle brackets and pipe. -/
def forbiddenChar (c : Char) : Bool :=
  c == Char.ofNat 92 || c == '/' || c == '*' || c == '?' || c == ':' ||
  c == Char.ofNat 34 || c == '<' || c == '>' || c == '|'

/-- Python `str.strip()` on a character list: drop whitespace from both
ends. -/
def stripList (l : List Char) : List Char :=
  ((l.dropWhile isPySpace).reverse.dropWhile isPySpace).reverse

/-- Python `str.strip()`. -/
def pyStrip (s : String) : String := (stripList s.toList).asString

/-- `sanitize_filename` (line 91-92): `re.sub` removes every character of
the forbidden class, then `.strip()` trims surrounding whitespace. -/
def sanitize_filename (s : String) : String :=
  (stripList (s.toList.filter (fun c => !forbiddenChar c))).asString

/-- `pat` is a literal leading segment of `s`. -/
def begMatch : List Char → List Char → Bool
  | [], _ => true
  | _ :: _, [] => false
  | a :: as, b :: bs => a == b && begMatch as bs

/-- `needle` occurs contiguously somewhere in the haystack. -/
def segIn (needle : List Char) : List Char → Bool
  | [] => begMatch needle []
  | c :: t => begMatch needle (c :: t) || segIn needle t

/-- Python's substring test `needle in hay`. -/
def strContains (needle hay : String) : Bool :=
  segIn needle.toList hay.toList

/-- The part of an HTTP response that `download_audio` inspects:
whether `raise_for_status` passes, and the declared Content-Type header
(`none` when the header is absent; the code then defaults it to ""). -/
structure HttpResponse where
  statusOk : Bool
  contentType : Option String
deriving DecidableEq

/-- Outcome of `requests.get`: a transport-level failure (connection
error, timeout) or a response. -/
inductive NetResult where
  | transportError
  | response (r : HttpResponse)

/-- The `DOWNLOAD_DIR` constant (line 21). -/
def DOWNLOAD_DIR : String := "downloads"

/-- The local path `download_audio` derives from artist and title
(lines 98-99): `os.path.join(DOWNLOAD_DIR, sanitize_filename(f"{artist} - {title}.mp3"))`.
The sanitized name never contains a path separator, so the join is plain
concatenation. -/
def localPath (artist title : String) : String :=
  DOWNLOAD_DIR ++ "/" ++ sanitize_filename (artist ++ " - " ++ title ++ ".mp3")

/-- `download_audio` (lines 94-123).  `fs` is the set of existing file
paths, `net` the network.  Result: the returned value, the filesystem
afterwards, and the number of HTTP requests issued.  The streaming
chunked write is modelled as the path becoming existent; a transport
error, a bad status raised by `raise_for_status`, and the content-type
rejection all return `None` through the `except` clause or the early
`return`. -/
def download_audio (net : String → NetResult) (fs : List String)
    (url : Option String) (artist title : String) :
    Option String × List String × Nat :=
  match url with
  | none => (none, fs, 0)
  | some u =>
    if u == "" then (none, fs, 0)
    else
      let filepath := localPath artist title
      if fs.contains filepath then (some filepath, fs, 0)
      else
        match net u with
        | NetResult.transportError => (none, fs, 1)
        | NetResult.response r =>
          if !r.statusOk then (none, fs, 1)
          else
            let ct := r.contentType.getD ""
            if !(strContains "audio" ct || strContains "octet-stream" ct) then
              (none, fs, 1)
            else (some filepath, filepath :: fs, 1)

/-- Characters matched by the regex class `[\d.]`. -/
def isDigitDot (c : Char) : Bool := c.isDigit || c == '.'

/-- Numeric value of a digit string (most significant first). -/
def natOfDigits (l : List Char) : Nat :=
  l.foldl (fun acc c => acc * 10 + (c.toNat - 48)) 0

/-- Python `float(val)` on a nonempty string of digits and dots: it
succeeds iff there is at most one dot and at least one digit, and the
value is `a + b / 10 ^ k` for integer part `a` and fractional digits `b`
(`k` of them).  `none` models the `ValueError` that `float` raises
otherwise. -/
def pyFloatDD (run : List Char) : Option (Nat × Nat × Nat) :=
  if run.count '.' ≤ 1 && run.any Char.isDigit then
    match run.span (fun c => c != '.') with
    | (ip, []) => some (natOfDigits ip, 0, 0)
    | (ip, _ :: fp) => some (natOfDigits ip, natOfDigits fp, fp.length)
  else none

/-- Result of the play-count block: a value, or the uncaught `ValueError`
from `float`. -/
inductive PlayResult where
  | ok (n : Nat)
  | valueError
deriving DecidableEq

/-- The play-count parsing block of `parse_trending` (lines 192-200).
`tagText` is `none` when no `Play Count` button is found, otherwise the
button's stripped text.  `re.match(r'([\d.]+)([KM]?)', text.upper())`
matches iff the text starts with a digit or dot; group 1 is the maximal
leading run of digits and dots, group 2 the following character when it
is `K` or `M`.  The numeric value is computed exactly (see header). -/
def parse_plays (tagText : Option String) : PlayResult :=
  match tagText with
  | none => PlayResult.ok 0
  | some t =>
    let u := t.toList.map Char.toUpper
    let run := u.takeWhile isDigitDot
    match run with
    | [] => PlayResult.ok 0
    | _ :: _ =>
      let mult : Nat :=
        match u.drop run.length with
        | c :: _ => if c == 'K' then 1000 else if c == 'M' then 1000000 else 1
        | [] => 1
      match pyFloatDD run with
      | none => PlayResult.valueError
      | some (a, b, k) => PlayResult.ok ((a * 10 ^ k + b) * mult / 10 ^ k)

/-- Characters matched by the regex class `[^\s\x27\x22<>]` (anything
but whitespace, single quote, double quote, and angle brackets). -/
def isUrlChar (c : Char) : Bool :=
  !(isPySpace c || c == Char.ofNat 39 || c == Char.ofNat 34 ||
    c == '<' || c == '>')

/-- `pat` (given in lowercase) is a case-insensitive leading segment of
`s`. -/
def ciStartsWith (pat s : List Char) : Bool :=
  match pat, s with
  | [], _ => true
  | _ :: _, [] => false
  | p :: ps, c :: cs => c.toLower == p && ciStartsWith ps cs

/-- The extension alternatives `(mp3|wav|ogg|m4a|flac)`. -/
def extChoices : List (List Char) :=
  [['m', 'p', '3'], ['w', 'a', 'v'], ['o', 'g', 'g'],
   ['m', '4', 'a'], ['f', 'l', 'a', 'c']]

/-- `l` can be the text matched by `[^\s\x27\x22<>]+\.(mp3|wav|ogg|m4a|flac)`
under `re.I`: it ends in a dot followed by one of the extensions, with at
least one character before that dot. -/
def validUrlBody (l : List Char) : Bool :=
  extChoices.any (fun e =>
    decide (e.length + 2 ≤ l.length) && ciStartsWith (e.reverse ++ ['.']) l.reverse)

/-- Greedy-with-backtracking semantics of `[^...]+\.(ext)` inside the
maximal run of class characters: the longest leading segment of `run`
that is a valid URL body. -/
def bestBodyLen (run : List Char) : Option Nat :=
  (List.range (run.length + 1)).reverse.find? (fun L => validUrlBody (run.take L))

/-- Length matched by `https?://` (case-insensitive, `s?` greedy) at the
head of `s`. -/
def schemeLen (s : List Char) : Option Nat :=
  if ciStartsWith ['h', 't', 't', 'p', 's', ':', '/', '/'] s then some 8
  else if ciStartsWith ['h', 't', 't', 'p', ':', '/', '/'] s then some 7
  else none

/-- Attempt the URL regex at the start of `s`; on success return the
matched text and the number of characters consumed. -/
def tryMatchAt (s : List Char) : Option (List Char × Nat) :=
  match schemeLen s with
  | none => none
  | some n =>
    let run := (s.drop n).takeWhile isUrlChar
    match bestBodyLen run with
    | none => none
    | some L => some (s.take n ++ run.take L, n + L)

/-- `re.findall` of the URL pattern: try the pattern at each position
from the left; on a match, emit it and continue after its end
(non-overlapping).  Every step consumes at least one character, so the
list length bounds the iteration count and the fuel is never exhausted. -/
def findAudioUrlsAux : Nat → List Char → List (List Char)
  | 0, _ => []
  | _ + 1, [] => []
  | fuel + 1, c :: rest =>
    match tryMatchAt (c :: rest) with
    | some (url, n) => url :: findAudioUrlsAux fuel ((c :: rest).drop n)
    | none => findAudioUrlsAux fuel rest

/-- All matches of the URL pattern in a script body, in document order. -/
def findAudioUrls (s : List Char) : List (List Char) :=
  findAudioUrlsAux s.length s

/-- `'sil-100.mp3' in u`. -/
def containsSil (u : String) : Bool := strContains "sil-100.mp3" u

/-- What one loop iteration of lines 277-284 extracts from a script:
`script.string` must be truthy (present and nonempty), and only
`urls[0][0]`, the first regex match, is ever read. -/
def scriptFirstUrl (os : Option String) : Option String :=
  match os with
  | none => none
  | some s =>
    if s == "" then none
    else
      match findAudioUrls s.toList with
      | [] => none
      | u :: _ => some u.asString

/-- The script loop of lines 276-284: walk the scripts in document
order; a script with no match is passed over, a script whose first match
contains `sil-100.mp3` is also passed over (without the `break`), and
the first script whose first match is clean stops the loop with that
URL. -/
def scanScripts : List (Option String) → Option String
  | [] => none
  | os :: rest =>
    match scriptFirstUrl os with
    | none => scanScripts rest
    | some u => if containsSil u then scanScripts rest else some u

/-- `l` ends in a dot followed by one of the extensions (the `\.(ext)$`
pattern, without Python's trailing-newline allowance). -/
def extAtEnd (l : List Char) : Bool :=
  extChoices.any (fun e => ciStartsWith (e.reverse ++ ['.']) l.reverse)

/-- `re.search` of `\.(mp3|wav|ogg|m4a|flac)$` under `re.I` on an
`audio` tag's `src`: Python's `$` also matches just before a final
newline. -/
def srcEndsWithExt (src : String) : Bool :=
  extAtEnd src.toList ||
  (src.toList.getLast? == some (Char.ofNat 10) && extAtEnd src.toList.dropLast)

/-- A detail page, as far as the audio extraction block reads it:
`scripts` holds `script.string` of every script tag in document order
(`none` when BeautifulSoup yields no single string child), `audioSrcs`
the `src` attribute of every audio tag in document order. -/
structure DetailPage where
  scripts : List (Option String)
  audioSrcs : List String

/-- The audio extraction block of `parse_trending` (lines 273-293):
the script scan, then, only when it produced nothing, the first audio
tag whose `src` matches the extension pattern, rejected when it contains
`sil-100.mp3`.  A script-scan result always starts with `http`, so it is
never the empty string and the Python truthiness test `if not audio_url`
coincides with the `Option` match. -/
def extract_audio_url (p : DetailPage) : Option String :=
  match scanScripts p.scripts with
  | some u => some u
  | none =>
    match p.audioSrcs.find? srcEndsWithExt with
    | none => none
    | some src => if containsSil src then none else some src

/-- Every regex match in every script body, in document order. -/
def pageScriptUrls (p : DetailPage) : List String :=
  p.scripts.foldr (fun os acc =>
    (match os with
     | some s => (findAudioUrls s.toList).map List.asString
     | none => []) ++ acc) []

/-- Claim C2's description of the audio extraction, taken from the
spec's words: among all matching substrings of all script bodies in
document order, select the first that does not contain `sil-100.mp3`;
fall back to the audio tag only when no script yields a URL. -/
def audio_url_claimed (p : DetailPage) : Option String :=
  match ((pageScriptUrls p).filter (fun u => !containsSil u)).head? with
  | some u => some u
  | none =>
    match p.audioSrcs.find? srcEndsWithExt with
    | none => none
    | some src => if containsSil src then none else some src

/-- The amended description of the audio extraction: each script
contributes only its first match, and the first clean such
first-match wins. -/
def audio_url_amended (p : DetailPage) : Option String :=
  match ((p.scripts.filterMap scriptFirstUrl).filter (fun u => !containsSil u)).head? with
  | some u => some u
  | none =>
    match p.audioSrcs.find? srcEndsWithExt with
    | none => none
    | some src => if containsSil src then none else some src

/-- What the style block of lines 238-270 reads from the browser
session once the container wait succeeded: the texts of the style links,
and the outcome of the expand interaction (lines 249-261): `none` when
locating or clicking the show-full button raised (the inner `except`),
otherwise the re-collected link texts. -/
structure StyleContainer where
  linkTexts : List String
  expandOutcome : Option (List String)

/-- `', '.join(text.strip() for ... if text.strip())`. -/
def joinStyles (ts : List String) : String :=
  String.intercalate ", " ((ts.map pyStrip).filter (fun x => x != ""))

/-- The style extraction block (lines 238-270).  The argument is `none`
when the container wait raised (outer `except Exception: pass`, both
fields keep their initial `None`).  Returns
`(styles_preview, styles_full)`. -/
def styleExtract (c : Option StyleContainer) : Option String × Option String :=
  match c with
  | none => (none, none)
  | some cd =>
    let preview := joinStyles cd.linkTexts
    let sp := if preview == "" then none else some preview
    let sf :=
      match cd.expandOutcome with
      | none => some preview
      | some l =>
        let full := joinStyles l
        some (if full == "" then preview else full)
    (sp, sf)

/-- The fallback situations of claim C7: the expand control was not
found or activating it failed, or the expanded collection joined to the
empty string. -/
def expandFallback (cd : StyleContainer) : Bool :=
  match cd.expandOutcome with
  | none => true
  | some l => joinStyles l == ""

/-- A candidate record as built by `parse_trending` (lines 207-217). -/
structure Track where
  artist : String
  title : String
  track_url : Option String
  audio_url : Option String
  plays : Nat
  explicit : Bool
  file_path : Option String
  styles_preview : Option String
  styles_full : Option String
deriving DecidableEq

/-- A stored row, with the columns `save_new_tracks` inserts
(lines 325-333); `explicit` is stored as `1 if track['explicit'] else 0`. -/
structure Row where
  artist : String
  title : String
  track_url : Option String
  audio_url : Option String
  plays : Nat
  explicitInt : Nat
  file_path : Option String
  styles_preview : Option String
  styles_full : Option String
deriving DecidableEq

/-- The tuple bound by the INSERT statement. -/
def rowOfTrack (t : Track) : Row :=
  ⟨t.artist, t.title, t.track_url, t.audio_url, t.plays,
   if t.explicit then 1 else 0, t.file_path, t.styles_preview, t.styles_full⟩

/-- `track_exists` (lines 85-87): `SELECT id ... WHERE track_url = ?`;
SQL equality against a string parameter never matches a NULL column. -/
def track_exists (db : List Row) (url : String) : Bool :=
  db.any (fun r => r.track_url == some url)

/-- How `save_new_tracks` classifies an insert failure: the
`except sqlite3.IntegrityError` clause, or the generic `except
Exception` clause. -/
inductive InsertError where
  | duplicateKey
  | otherError
deriving DecidableEq

/-- One INSERT against the table of `create_database_and_table`
(lines 35-49): the `UNIQUE` constraint on `track_url` rejects a row
whose `track_url` string is already stored, raising an
`IntegrityError`; a NULL `track_url` never conflicts. -/
def store_insert (db : List Row) (r : Row) : Except InsertError (List Row) :=
  match r.track_url with
  | some u =>
    if track_exists db u then Except.error InsertError.duplicateKey
    else Except.ok (db ++ [r])
  | none => Except.ok (db ++ [r])

/-- One iteration of the loop of `save_new_tracks` (lines 322-340) on
the state (table, accumulated `new_tracks`): the truthiness guard on
`track['track_url']`, the `track_exists` pre-check, then the INSERT with
both `except` clauses skipping the track silently. -/
def saveStep (st : List Row × List Track) (t : Track) : List Row × List Track :=
  match t.track_url with
  | none => st
  | some u =>
    if u != "" && !track_exists st.1 u then
      match store_insert st.1 (rowOfTrack t) with
      | Except.ok db2 => (db2, st.2 ++ [t])
      | Except.error _ => st
    else st

/-- `save_new_tracks` (lines 314-344): fold the loop over the input
list, starting from the current table and an empty `new_tracks` list.
The early `return []` on an empty input coincides with the fold. -/
def save_new_tracks (db : List Row) (tracks : List Track) :
    List Row × List Track :=
  tracks.foldl saveStep (db, [])

/-- The optional character is not whitespace (vacuously so when absent). -/
def optNotSpace : Option Char → Bool
  | some c => !isPySpace c
  | none => true

/-- The first character, if any, is not whitespace. -/
def headNotSpace (l : List Char) : Bool := optNotSpace l.head?

/-- The final character, if any, is not whitespace. -/
def lastNotSpace (l : List Char) : Bool := optNotSpace l.getLast?

/-- A detail page on which the claimed and the implemented audio
extraction disagree: the single script's first URL match is the
silent-stub asset and a clean URL follows it in the same script. -/
def c2page : DetailPage :=
  ⟨[some "x https://cdn.example/sil-100.mp3 https://cdn.example/track.mp3"], []⟩

/-- A detail page whose single script holds one clean audio URL. -/
def c2okPage : DetailPage := ⟨[some "https://cdn.example/track.mp3"], []⟩

/-- A network that always answers with an audio-typed 200 response. -/
def audioNet : String → NetResult :=
  fun _ => NetResult.response ⟨true, some "audio/mpeg"⟩

/-- A network that always answers 200 with an HTML content type. -/
def htmlNet : String → NetResult :=
  fun _ => NetResult.response ⟨true, some "text/html"⟩

/-- A concrete candidate record. -/
def sampleTrack : Track :=
  ⟨"DJ X", "Song A", some "https://suno.com/song/1",
   some "https://cdn.example/a.mp3", 1200, false, none, none, none⟩

/-- A second candidate with the same `track_url`. -/
def sampleTrack2 : Track :=
  ⟨"DJ Y", "Song B", some "https://suno.com/song/1", none, 7, true,
   none, none, none⟩

/-- A style container with nonempty link texts and no expand control. -/
def styleOkContainer : StyleContainer := ⟨["pop", "rock"], none⟩

/-- A style container whose only link has empty text and whose expand
control is missing. -/
def emptyTextContainer : StyleContainer := ⟨[""], none⟩

/-! ## Helper lemmas about `dropWhile` and `stripList` -/

theorem dwHeadFalse (p : Char → Bool) :
    ∀ (l : List Char) (c : Char) (t : List Char),
      l.dropWhile p = c :: t → p c = false := by
  intro l
  induction l with
  | nil => intro c t h; simp [List.dropWhile] at h
  | cons x xs ih =>
    intro c t h
    rw [List.dropWhile_cons] at h
    by_cases hx : p x = true
    · rw [if_pos hx] at h; exact ih c t h
    · rw [if_neg hx] at h
      cases h
      simp at hx
      exact hx

theorem dwGetLast (p : Char → Bool) :
    ∀ l : List Char, l.dropWhile p ≠ [] →
      (l.dropWhile p).getLast? = l.getLast? := by
  intro l
  induction l with
  | nil => intro h; simp [List.dropWhile] at h
  | cons x xs ih =>
    intro h
    rw [List.dropWhile_cons]
    by_cases hx : p x = true
    · rw [List.dropWhile_cons, if_pos hx] at h
      rw [if_pos hx, ih h]
      have hxs : xs ≠ [] := by
        intro he; rw [he] at h; simp [List.dropWhile] at h
      cases xs with
      | nil => exact absurd rfl hxs
      | cons y ys => rw [List.getLast?_cons_cons]
    · rw [if_neg hx]

theorem dwMem (p : Char → Bool) :
    ∀ (l : List Char) (c : Char), c ∈ l.dropWhile p → c ∈ l := by
  intro l
  induction l with
  | nil => intro c h; simp [List.dropWhile] at h
  | cons x xs ih =>
    intro c h
    rw [List.dropWhile_cons] at h
    by_cases hx : p x = true
    · rw [if_pos hx] at h; exact List.mem_cons_of_mem x (ih c h)
    · rw [if_neg hx] at h; exact h

theorem dwHeadNotSpace (m : List Char) :
    optNotSpace ((m.dropWhile isPySpace).head?) = true := by
  cases h : m.dropWhile isPySpace with
  | nil => rfl
  | cons c t => simp [optNotSpace, dwHeadFalse isPySpace m c t h]

theorem dwNoOpH (m : List Char) (h : optNotSpace m.head? = true) :
    m.dropWhile isPySpace = m := by
  cases m with
  | nil => rfl
  | cons c t =>
    simp only [List.head?_cons, optNotSpace, Bool.not_eq_true'] at h
    rw [List.dropWhile_cons, if_neg (by simp [h])]

theorem stripHeadNotSpace (l : List Char) :
    headNotSpace (stripList l) = true := by
  unfold stripList headNotSpace
  rw [List.head?_reverse]
  cases hB : (l.dropWhile isPySpace).reverse.dropWhile isPySpace with
  | nil => rfl
  | cons b bs =>
    rw [← hB, dwGetLast isPySpace _ (by rw [hB]; exact List.cons_ne_nil b bs),
      List.getLast?_reverse]
    exact dwHeadNotSpace l

theorem stripLastNotSpace (l : List Char) :
    lastNotSpace (stripList l) = true := by
  unfold stripList lastNotSpace
  rw [List.getLast?_reverse]
  exact dwHeadNotSpace _

theorem stripMem (l : List Char) (c : Char) (h : c ∈ stripList l) :
    c ∈ l := by
  unfold stripList at h
  rw [List.mem_reverse] at h
  have h2 := dwMem isPySpace _ c h
  rw [List.mem_reverse] at h2
  exact dwMem isPySpace l c h2

theorem stripNoOp (l : List Char) (hh : headNotSpace l = true)
    (hl : lastNotSpace l = true) : stripList l = l := by
  unfold stripList
  rw [dwNoOpH l hh]
  rw [dwNoOpH l.reverse (by rw [List.head?_reverse]; exact hl)]
  exact List.reverse_reverse l

theorem stripIdem (l : List Char) : stripList (stripList l) = stripList l :=
  stripNoOp _ (stripHeadNotSpace l) (stripLastNotSpace l)

/-! ## Claim C4 -/

/-- C4: `sanitize_filename` removes exactly the characters backslash,
slash, asterisk, question mark, colon, double quote, angle brackets and
pipe, trims surrounding whitespace, and is idempotent: the result of a
second application is unchanged; every output character is a
non-forbidden input character; the output starts and ends with
non-whitespace; and an input that is already free of forbidden
characters and of surrounding whitespace is returned unchanged
(determinism is inherent in the function being a function). -/
theorem c4_sanitize_exact (s : String) :
    sanitize_filename (sanitize_filename s) = sanitize_filename s
    ∧ (∀ c ∈ (sanitize_filename s).toList, forbiddenChar c = false ∧ c ∈ s.toList)
    ∧ headNotSpace (sanitize_filename s).toList = true
    ∧ lastNotSpace (sanitize_filename s).toList = true
    ∧ ((∀ c ∈ s.toList, forbiddenChar c = false) → headNotSpace s.toList = true →
        lastNotSpace s.toList = true → sanitize_filename s = s) := by
  refine ⟨?_, ?_, ?_, ?_, ?_⟩
  · have hM : ∀ c ∈ stripList (s.toList.filter fun c => !forbiddenChar c),
        (!forbiddenChar c) = true := by
      intro c hc
      exact (List.mem_filter.mp (stripMem _ c hc)).2
    unfold sanitize_filename
    rw [show (List.asString (stripList (s.toList.filter fun c => !forbiddenChar c))).toList
        = stripList (s.toList.filter fun c => !forbiddenChar c) from rfl]
    rw [List.filter_eq_self.mpr hM, stripIdem]
  · intro c hc
    have hc2 : c ∈ stripList (s.toList.filter fun c => !forbiddenChar c) := hc
    have hc3 := stripMem _ c hc2
    rw [List.mem_filter] at hc3
    refine ⟨?_, hc3.1⟩
    have := hc3.2
    simpa using this
  · exact stripHeadNotSpace _
  · exact stripLastNotSpace _
  · intro h1 h2 h3
    unfold sanitize_filename
    rw [List.filter_eq_self.mpr (by intro a ha; simp [h1 a ha])]
    rw [stripNoOp _ h2 h3]
    rfl

/-- Witness for C4 at a concrete clean input. -/
theorem c4_sanitize_exact_witness : sanitize_filename "Song A" = "Song A" :=
  (c4_sanitize_exact "Song A").2.2.2.2 (by decide) (by decide) (by decide)

/-! ## Claim C3 -/

/-- C3: the play-count block maps the spec's samples as stated
("12.5K" to 12500, "3M" to 3000000, "842" to 842, also the lowercase
suffix), and an absent control, an empty text or a text that the regex
does not match at all yield 0; but the claim's "every unparsable text
yields 0" fails: a text whose leading digits-and-dots run is not a
valid decimal literal ("." or "1.2.3") makes the unguarded `float`
call raise `ValueError` instead of yielding 0. -/
theorem c3_plays_behaviour :
    parse_plays (some "12.5K") = PlayResult.ok 12500
    ∧ parse_plays (some "3M") = PlayResult.ok 3000000
    ∧ parse_plays (some "842") = PlayResult.ok 842
    ∧ parse_plays (some "12.5k") = PlayResult.ok 12500
    ∧ parse_plays none = PlayResult.ok 0
    ∧ parse_plays (some "") = PlayResult.ok 0
    ∧ parse_plays (some "abc") = PlayResult.ok 0
    ∧ parse_plays (some ".") = PlayResult.valueError
    ∧ parse_plays (some "1.2.3") = PlayResult.valueError := by
  decide

/-! ## Claims C5, C6, C9 (download_audio) -/

/-- C5: with a nonempty URL, a file already present at the derived
local path is returned at once with no network request; consequently,
after any call that returned a path, a repeated call with the same
(artist, title) and URL issues zero requests and returns the same
path, with the filesystem unchanged. -/
theorem c5_download_cached (net : String → NetResult) (fs : List String)
    (a t u : String) (hu : u ≠ "") :
    (fs.contains (localPath a t) = true →
      download_audio net fs (some u) a t = (some (localPath a t), fs, 0))
    ∧ (∀ p fs2 n, download_audio net fs (some u) a t = (some p, fs2, n) →
        download_audio net fs2 (some u) a t = (some p, fs2, 0)) := by
  have hne : ¬((u == "") = true) := by simp [hu]
  constructor
  · intro h
    simp only [download_audio]
    rw [if_neg hne, if_pos h]
  · intro p fs2 n h
    simp only [download_audio] at h ⊢
    rw [if_neg hne] at h ⊢
    by_cases hc : fs.contains (localPath a t) = true
    · rw [if_pos hc] at h
      simp only [Prod.mk.injEq, Option.some.injEq] at h
      obtain ⟨rfl, rfl, rfl⟩ := h
      rw [if_pos hc]
    · rw [if_neg hc] at h
      cases hnet : net u with
      | transportError => rw [hnet] at h; simp at h
      | response r =>
        rw [hnet] at h
        by_cases hok : r.statusOk = true
        · simp only [hok, Bool.not_true, Bool.false_eq_true, if_false] at h
          by_cases hct : (strContains "audio" (r.contentType.getD "")
              || strContains "octet-stream" (r.contentType.getD "")) = true
          · simp only [hct, Bool.not_true, Bool.false_eq_true, if_false] at h
            simp only [Prod.mk.injEq, Option.some.injEq] at h
            obtain ⟨rfl, rfl, rfl⟩ := h
            rw [if_pos (by simp)]
          · simp only [Bool.not_eq_true] at hct
            simp only [hct, Bool.not_false, if_true] at h
            simp at h
        · simp only [Bool.not_eq_true] at hok
          simp only [hok, Bool.not_false, if_true] at h
          simp at h

/-- Witness for C5: a concrete second call after a successful first
download returns the cached path with zero requests. -/
theorem c5_download_cached_witness :
    download_audio audioNet [localPath "DJ X" "Song A"]
        (some "https://cdn.example/a.mp3") "DJ X" "Song A"
      = (some (localPath "DJ X" "Song A"), [localPath "DJ X" "Song A"], 0) :=
  (c5_download_cached audioNet [] "DJ X" "Song A" "https://cdn.example/a.mp3"
      (by decide)).2
    (localPath "DJ X" "Song A") [localPath "DJ X" "Song A"] 1 (by decide)

/-- C6: with a nonempty URL and no cached file, a 200 response whose
content type contains neither "audio" nor "octet-stream" makes
`download_audio` return `None` with the filesystem unchanged (no file
written); a transport error, and a response that `raise_for_status`
rejects, also return `None` rather than raising. -/
theorem c6_content_type_guard (net : String → NetResult) (fs : List String)
    (a t u : String) (r : HttpResponse) (hu : u ≠ "")
    (hnf : fs.contains (localPath a t) = false) :
    (net u = NetResult.response r → r.statusOk = true →
      strContains "audio" (r.contentType.getD "") = false →
      strContains "octet-stream" (r.contentType.getD "") = false →
      download_audio net fs (some u) a t = (none, fs, 1))
    ∧ (net u = NetResult.transportError →
      download_audio net fs (some u) a t = (none, fs, 1))
    ∧ (net u = NetResult.response r → r.statusOk = false →
      download_audio net fs (some u) a t = (none, fs, 1)) := by
  have hne : ¬((u == "") = true) := by simp [hu]
  have hnc : ¬(fs.contains (localPath a t) = true) := by
    intro hcon
    rw [hnf] at hcon
    exact Bool.false_ne_true hcon
  refine ⟨?_, ?_, ?_⟩
  · intro hnet hok hct1 hct2
    simp only [download_audio]
    rw [if_neg hne, if_neg hnc, hnet]
    simp [hok, hct1, hct2]
  · intro hnet
    simp only [download_audio]
    rw [if_neg hne, if_neg hnc, hnet]
  · intro hnet hok
    simp only [download_audio]
    rw [if_neg hne, if_neg hnc, hnet]
    simp [hok]

/-- Witness for C6: a concrete HTML response is rejected without a
write. -/
theorem c6_content_type_guard_witness :
    download_audio htmlNet [] (some "https://cdn.example/a.mp3") "DJ X" "Song A"
      = (none, [], 1) :=
  (c6_content_type_guard htmlNet [] "DJ X" "Song A" "https://cdn.example/a.mp3"
      ⟨true, some "text/html"⟩ (by decide) (by decide)).1
    rfl rfl (by decide) (by decide)

/-- C9: an absent or empty URL makes `download_audio` return `None`
immediately, even when a file already exists at the derived local path:
the URL truthiness check precedes the existing-file short circuit. -/
theorem c9_empty_url_first (net : String → NetResult) (fs : List String)
    (a t : String) (_hExists : fs.contains (localPath a t) = true) :
    download_audio net fs none a t = (none, fs, 0)
    ∧ download_audio net fs (some "") a t = (none, fs, 0) := by
  refine ⟨rfl, ?_⟩
  simp only [download_audio]
  rw [if_pos (by decide)]

/-- Witness for C9 at a concrete cached file. -/
theorem c9_empty_url_first_witness :
    download_audio audioNet [localPath "DJ X" "Song A"] none "DJ X" "Song A"
      = (none, [localPath "DJ X" "Song A"], 0) :=
  (c9_empty_url_first audioNet [localPath "DJ X" "Song A"] "DJ X" "Song A"
      (by decide)).1

/-! ## Claim C2 (audio extraction) -/

/-- The script loop is the first clean element of the per-script
first-match list. -/
theorem scanScriptsHead (l : List (Option String)) :
    scanScripts l
      = ((l.filterMap scriptFirstUrl).filter (fun u => !containsSil u)).head? := by
  induction l with
  | nil => rfl
  | cons os rest ih =>
    cases h : scriptFirstUrl os with
    | none => simp [scanScripts, h, ih]
    | some u =>
      by_cases hs : containsSil u = true
      · simp [scanScripts, h, hs, ih]
      · simp [scanScripts, h, hs]

/-- A URL produced by the script loop passed the sil-100 filter. -/
theorem scanScriptsSil :
    ∀ (l : List (Option String)) (u : String),
      scanScripts l = some u → containsSil u = false := by
  intro l
  induction l with
  | nil => intro u h; simp [scanScripts] at h
  | cons os rest ih =>
    intro u h
    cases hsf : scriptFirstUrl os with
    | none =>
      simp only [scanScripts, hsf] at h
      exact ih u h
    | some v =>
      simp only [scanScripts, hsf] at h
      by_cases hs : containsSil v = true
      · rw [if_pos hs] at h
        exact ih u h
      · rw [if_neg hs] at h
        injection h with h2
        subst h2
        simp only [Bool.not_eq_true] at hs
        exact hs

/-- C2 (amended): the audio extraction scans scripts in document order
but reads only the first regex match of each script; the result is the
first such per-script first match that does not contain `sil-100.mp3`,
with the audio-tag fallback used only when no script supplies a URL;
and any selected URL is free of `sil-100.mp3`. -/
theorem c2_audio_first_match (p : DetailPage) :
    extract_audio_url p = audio_url_amended p
    ∧ ∀ u, extract_audio_url p = some u → containsSil u = false := by
  constructor
  · unfold extract_audio_url audio_url_amended
    rw [scanScriptsHead]
  · intro u h
    unfold extract_audio_url at h
    cases hs : scanScripts p.scripts with
    | some v =>
      simp only [hs] at h
      injection h with h2
      subst h2
      exact scanScriptsSil _ _ hs
    | none =>
      simp only [hs] at h
      cases hf : p.audioSrcs.find? srcEndsWithExt with
      | none =>
        simp only [hf] at h
        exact Option.noConfusion h
      | some src =>
        simp only [hf] at h
        by_cases hcs : containsSil src = true
        · rw [if_pos hcs] at h
          cases h
        · rw [if_neg hcs] at h
          injection h with h2
          subst h2
          simp only [Bool.not_eq_true] at hcs
          exact hcs

/-- Witness for C2's amended theorem: the URL selected on a concrete
page is free of the placeholder token. -/
theorem c2_audio_first_match_witness :
    containsSil "https://cdn.example/track.mp3" = false :=
  (c2_audio_first_match c2okPage).2 "https://cdn.example/track.mp3" (by decide)

/-- Counterexample to C2 as stated: on `c2page` the single script's
matches are the sil-100 URL followed by a clean URL, so the claimed
rule selects the clean URL while the code, which only ever reads the
first match of each script, selects nothing. -/
theorem c2_counterexample :
    extract_audio_url c2page = none
    ∧ audio_url_claimed c2page = some "https://cdn.example/track.mp3"
    ∧ extract_audio_url c2page ≠ audio_url_claimed c2page := by
  refine ⟨by decide, by decide, by decide⟩

/-! ## Claim C7 (style extraction) -/

/-- C7 (amended): an absent container leaves both fields null; in every
fallback situation (no expand control, activation failure, or empty
expanded collection) `styles_full` is the preview string, which equals
`styles_preview` whenever the latter is non-null, but is the empty
string (not null) when every link text stripped to empty; and
`styles_full` is never null while `styles_preview` is non-null. -/
theorem c7_styles_fallback (c : Option StyleContainer) :
    (c = none → styleExtract c = (none, none))
    ∧ (∀ cd, c = some cd → expandFallback cd = true →
        ((styleExtract c).1 ≠ none → (styleExtract c).2 = (styleExtract c).1)
        ∧ ((styleExtract c).1 = none → (styleExtract c).2 = some ""))
    ∧ ((styleExtract c).1 ≠ none → (styleExtract c).2 ≠ none) := by
  cases c with
  | none =>
    refine ⟨fun _ => rfl, fun cd hc => by simp at hc, fun h1 => absurd rfl h1⟩
  | some cd =>
    refine ⟨fun hc => by simp at hc, ?_, ?_⟩
    · intro cd2 hc hfb
      have hcd : cd = cd2 := Option.some.inj hc
      subst hcd
      cases heo : cd.expandOutcome with
      | none =>
        by_cases hp : (joinStyles cd.linkTexts == "") = true
        · have hp2 : joinStyles cd.linkTexts = "" := by simpa using hp
          constructor
          · intro h1
            exfalso
            apply h1
            simp [styleExtract, hp2]
          · intro _
            simp [styleExtract, heo, hp2]
        · constructor
          · intro _
            simp [styleExtract, heo, hp]
          · intro h1
            exfalso
            simp [styleExtract, hp] at h1
      | some l =>
        have hfl : joinStyles l = "" := by
          have := hfb
          simp only [expandFallback, heo] at this
          simpa using this
        by_cases hp : (joinStyles cd.linkTexts == "") = true
        · have hp2 : joinStyles cd.linkTexts = "" := by simpa using hp
          constructor
          · intro h1
            exfalso
            apply h1
            simp [styleExtract, hp2]
          · intro _
            simp [styleExtract, heo, hfl, hp2]
        · constructor
          · intro _
            simp [styleExtract, heo, hp, hfl]
          · intro h1
            exfalso
            simp [styleExtract, hp] at h1
    · intro h1
      cases heo : cd.expandOutcome with
      | none => simp [styleExtract, heo]
      | some l => simp [styleExtract, heo]

/-- Witness for C7's amended theorem at a concrete container with
nonempty link texts and a missing expand control. -/
theorem c7_styles_fallback_witness :
    (styleExtract (some styleOkContainer)).2
      = (styleExtract (some styleOkContainer)).1 :=
  ((c7_styles_fallback (some styleOkContainer)).2.1 styleOkContainer rfl
      (by decide)).1 (by decide)

/-- Counterexample to C7 as stated: a container whose single style link
has empty text and whose expand control is missing makes
`styles_preview` null but `styles_full` the empty string, so the
claimed equality `styles_full == styles_preview` fails. -/
theorem c7_counterexample :
    styleExtract (some emptyTextContainer) = (none, some "")
    ∧ (styleExtract (some emptyTextContainer)).2
        ≠ (styleExtract (some emptyTextContainer)).1
    ∧ expandFallback emptyTextContainer = true := by
  refine ⟨by decide, by decide, by decide⟩

/-! ## Claims C1, C8, C10 (store and save phase) -/

/-- C1: once a row with `track_url` string `s` is stored, inserting any
second row with the same `track_url` raises the uniqueness violation,
classified as the duplicate-key error; the first row is still stored;
and in the save loop a colliding candidate is skipped silently,
leaving the table and the returned `new_tracks` list unchanged. -/
theorem c1_duplicate_insert (db db1 : List Row) (r1 r2 : Row) (s : String)
    (h1 : r1.track_url = some s) (h2 : r2.track_url = some s)
    (hins : store_insert db r1 = Except.ok db1) :
    store_insert db1 r2 = Except.error InsertError.duplicateKey
    ∧ r1 ∈ db1
    ∧ ∀ (t : Track) (acc : List Track), rowOfTrack t = r2 →
        saveStep (db1, acc) t = (db1, acc) := by
  have hins2 : db1 = db ++ [r1] ∧ track_exists db s = false := by
    simp only [store_insert, h1] at hins
    by_cases he : track_exists db s = true
    · rw [if_pos he] at hins
      exact Except.noConfusion hins
    · rw [if_neg he] at hins
      injection hins with h3
      simp only [Bool.not_eq_true] at he
      exact ⟨h3.symm, he⟩
  obtain ⟨hdb1, _hnex⟩ := hins2
  have hex1 : track_exists db1 s = true := by
    subst hdb1
    unfold track_exists
    rw [List.any_append]
    have hone : [r1].any (fun r => r.track_url == some s) = true := by
      simp [List.any_cons, h1]
    rw [hone, Bool.or_true]
  refine ⟨?_, ?_, ?_⟩
  · simp only [store_insert, h2, hex1, if_true]
  · subst hdb1
    exact List.mem_append_right db (List.mem_singleton_self r1)
  · intro t acc hrt
    have htu : t.track_url = some s := by
      have hpr : (rowOfTrack t).track_url = t.track_url := rfl
      rw [← hpr, hrt, h2]
    simp only [saveStep, htu]
    simp [hex1]

/-- Witness for C1: inserting a second row with the stored `track_url`
fails with the duplicate-key error. -/
theorem c1_duplicate_insert_witness :
    store_insert [rowOfTrack sampleTrack] (rowOfTrack sampleTrack2)
      = Except.error InsertError.duplicateKey :=
  (c1_duplicate_insert [] [rowOfTrack sampleTrack] (rowOfTrack sampleTrack)
      (rowOfTrack sampleTrack2) "https://suno.com/song/1" rfl rfl rfl).1

/-- One iteration of the save loop either changes nothing or appends
the candidate's row; in the latter case the candidate's `track_url` is
a nonempty string that was not yet stored. -/
theorem saveStepCases (st : List Row × List Track) (t : Track) :
    saveStep st t = st
    ∨ (saveStep st t = (st.1 ++ [rowOfTrack t], st.2 ++ [t])
       ∧ ∃ u, t.track_url = some u ∧ u ≠ "" ∧ track_exists st.1 u = false) := by
  cases htu : t.track_url with
  | none => left; simp [saveStep, htu]
  | some u =>
    by_cases hcond : ((u != "") && !track_exists st.1 u) = true
    · right
      rw [Bool.and_eq_true] at hcond
      obtain ⟨hu1, hu2⟩ := hcond
      have hne : track_exists st.1 u = false := by simpa using hu2
      have hnemp : u ≠ "" := by simpa using hu1
      have hrow : (rowOfTrack t).track_url = some u := htu
      constructor
      · simp [saveStep, htu, store_insert, hrow, hne, hu1]
      · exact ⟨u, rfl, hnemp, hne⟩
    · left
      simp [saveStep, htu, hcond]

/-- Folding the save loop from any state appends a subsequence of the
inputs to both components. -/
theorem saveExtra :
    ∀ (ts : List Track) (dba : List Row) (acc : List Track),
      ∃ extra : List Track,
        ts.foldl saveStep (dba, acc) = (dba ++ extra.map rowOfTrack, acc ++ extra)
        ∧ extra.Sublist ts := by
  intro ts
  induction ts with
  | nil => intro dba acc; exact ⟨[], by simp, List.Sublist.refl []⟩
  | cons t ts ih =>
    intro dba acc
    rcases saveStepCases (dba, acc) t with hskip | ⟨hins, u, htu, hnemp, hnex⟩
    · rw [List.foldl_cons, hskip]
      obtain ⟨extra, heq, hsub⟩ := ih dba acc
      exact ⟨extra, heq, hsub.cons t⟩
    · rw [List.foldl_cons, hins]
      obtain ⟨extra, heq, hsub⟩ := ih (dba ++ [rowOfTrack t]) (acc ++ [t])
      refine ⟨t :: extra, ?_, hsub.cons₂ t⟩
      rw [heq]
      simp

/-- C8: every row in the table after `save_new_tracks` was either
already stored, or comes from a candidate whose `track_url` is a
non-null, nonempty string: a record without a `track_url` is never
persisted. -/
theorem c8_no_null_url_persisted (db : List Row) (ts : List Track) :
    ∀ r ∈ (save_new_tracks db ts).1,
      r ∈ db ∨ ∃ s, r.track_url = some s ∧ s ≠ "" := by
  have haux : ∀ (ts2 : List Track) (st : List Row × List Track),
      (∀ r ∈ st.1, r ∈ db ∨ ∃ s, r.track_url = some s ∧ s ≠ "") →
      ∀ r ∈ (ts2.foldl saveStep st).1,
        r ∈ db ∨ ∃ s, r.track_url = some s ∧ s ≠ "" := by
    intro ts2
    induction ts2 with
    | nil => intro st h r hr; exact h r hr
    | cons t rest ih =>
      intro st h r hr
      rw [List.foldl_cons] at hr
      refine ih (saveStep st t) ?_ r hr
      intro r2 hr2
      rcases saveStepCases st t with hskip | ⟨hins, u, htu, hnemp, _⟩
      · rw [hskip] at hr2
        exact h r2 hr2
      · rw [hins] at hr2
        rcases List.mem_append.mp hr2 with hold | hnew
        · exact h r2 hold
        · have hr2t : r2 = rowOfTrack t := List.mem_singleton.mp hnew
          subst hr2t
          exact Or.inr ⟨u, htu, hnemp⟩
  exact haux ts (db, []) (fun r hr => Or.inl hr)

/-- Witness for C8 at a concrete run: the single inserted row has a
nonempty `track_url`. -/
theorem c8_no_null_url_persisted_witness :
    rowOfTrack sampleTrack ∈ ([] : List Row)
    ∨ ∃ s, (rowOfTrack sampleTrack).track_url = some s ∧ s ≠ "" :=
  c8_no_null_url_persisted [] [sampleTrack] (rowOfTrack sampleTrack) (by decide)

/-- C10: `save_new_tracks` returns exactly the subsequence of inputs it
inserted, in input order (the final table is the initial one followed by
precisely the rows of the returned list); and of two candidates sharing
a fresh nonempty `track_url`, only the first is inserted and returned,
because the existence check is re-evaluated against the updated table. -/
theorem c10_save_returns_new (db : List Row) (ts : List Track) :
    ((save_new_tracks db ts).2).Sublist ts
    ∧ (save_new_tracks db ts).1
        = db ++ ((save_new_tracks db ts).2).map rowOfTrack
    ∧ ∀ (t1 t2 : Track) (u : String), t1.track_url = some u →
        t2.track_url = some u → u ≠ "" → track_exists db u = false →
        save_new_tracks db [t1, t2] = (db ++ [rowOfTrack t1], [t1]) := by
  obtain ⟨extra, heq, hsub⟩ := saveExtra ts db []
  refine ⟨?_, ?_, ?_⟩
  · show (ts.foldl saveStep (db, [])).2.Sublist ts
    rw [heq]
    simpa using hsub
  · show (ts.foldl saveStep (db, [])).1
        = db ++ ((ts.foldl saveStep (db, [])).2).map rowOfTrack
    rw [heq]
    simp
  · intro t1 t2 u h1 h2 h3 h4
    have hrow1 : (rowOfTrack t1).track_url = some u := h1
    have hs1 : saveStep (db, []) t1 = (db ++ [rowOfTrack t1], [t1]) := by
      simp [saveStep, h1, store_insert, hrow1, h4, h3]
    have hex : track_exists (db ++ [rowOfTrack t1]) u = true := by
      unfold track_exists
      rw [List.any_append]
      have hone : [rowOfTrack t1].any (fun r => r.track_url == some u) = true := by
        simp [List.any_cons, hrow1]
      rw [hone, Bool.or_true]
    have hs2 : saveStep (db ++ [rowOfTrack t1], [t1]) t2
        = (db ++ [rowOfTrack t1], [t1]) := by
      simp only [saveStep, h2]
      simp [hex]
    show [t1, t2].foldl saveStep (db, []) = (db ++ [rowOfTrack t1], [t1])
    rw [List.foldl_cons, hs1, List.foldl_cons, hs2]
    rfl

/-- Witness for C10: a concrete run with two candidates sharing a fresh
`track_url` inserts and returns only the first. -/
theorem c10_save_returns_new_witness :
    save_new_tracks [] [sampleTrack, sampleTrack2]
      = ([] ++ [rowOfTrack sampleTrack], [sampleTrack]) :=
  (c10_save_returns_new [] [sampleTrack, sampleTrack2]).2.2 sampleTrack
    sampleTrack2 "https://suno.com/song/1" rfl rfl (by decide) (by decide)
